import Mathlib

/-!
Shallow embedding of the streaming part/delta model of
`pydantic_ai_slim/pydantic_ai/messages.py`, of the text-fragment routing of
`pydantic_ai_slim/pydantic_ai/models/function.py`, and (modelled from the
specification, since `_parts_manager.py` is not among the provided sources)
of the stateful parts manager.

Python values are embedded as follows: `dict[str, Any]` becomes an
insertion-ordered association list `List (String × JsonValue)`; `str | None`
becomes `Option String`; raised exceptions become `Except MergeError`.
-/

/-- JSON-like values, the payloads of tool-call argument dictionaries.
Numbers keep their source lexeme (no code under verification inspects a
numeric value, only the shape of the containing document). -/
inductive JsonValue where
  | null
  | bool (b : Bool)
  | num (lexeme : String)
  | str (s : String)
  | arr (elems : List JsonValue)
  | obj (fields : List (String × JsonValue))

/-- Association-list embedding of a Python `dict[str, Any]`. -/
abbrev JsonDict := List (String × JsonValue)

/-- Lookup of a key in a dictionary: the value at the first matching entry. -/
def dictLookup (d : JsonDict) (k : String) : Option JsonValue :=
  (d.find? (fun kv => kv.1 == k)).map Prod.snd

/-- Python dict merge `\x7b**a, **b\x7d`: the keys of `a` in order, with values
overridden by `b` where `b` has the key, followed by the entries of `b`
whose keys do not occur in `a`, in their order in `b`. -/
def dictUpdate (a b : JsonDict) : JsonDict :=
  (a.map fun kv =>
    match b.find? (fun kv2 => kv2.1 == kv.1) with
    | some kv2 => (kv.1, kv2.2)
    | none => kv) ++
  b.filter fun kv2 => !(a.any fun kv => kv.1 == kv2.1)

/-- Tool arguments: `ArgsJson` (a raw JSON string, messages.py line 167) or
`ArgsDict` (a decoded mapping, messages.py line 175). -/
inductive Args where
  | argsJson (args_json : String)
  | argsDict (args_dict : JsonDict)

/-- TextPart (messages.py lines 152-163). -/
structure TextPart where
  content : String

/-- ToolCallPart (messages.py lines 182-199): a tool call from a model. -/
structure ToolCallPart where
  tool_name : String
  args : Args
  tool_call_id : Option String

/-- ModelResponsePart: the union `TextPart | ToolCallPart`
(messages.py line 238). -/
inductive ModelResponsePart where
  | text (part : TextPart)
  | toolCall (part : ToolCallPart)

/-- Raw arguments as accepted by `ToolCallPart.from_raw_args`
(`str | dict[str, Any]`) and carried by a delta's `args_delta` field. -/
inductive RawArgs where
  | str (s : String)
  | dict (d : JsonDict)

/-- ToolCallPart.from_raw_args (messages.py lines 201-209): wrap a raw string
in `ArgsJson` and a raw mapping in `ArgsDict`. -/
def ToolCallPart.from_raw_args (tool_name : String) (args : RawArgs)
    (tool_call_id : Option String) : ToolCallPart :=
  match args with
  | .str s => ⟨tool_name, .argsJson s, tool_call_id⟩
  | .dict d => ⟨tool_name, .argsDict d, tool_call_id⟩

/-- Errors raised by the merge operators and accessors, named as in the
specification (§7): Python `ValueError` on a part-kind mismatch becomes
`typeMismatch`; `ValueError`/`NotImplementedError` on a string-vs-mapping
argument disagreement becomes `argsRepresentationConflict`; `ValueError` on
an identifier disagreement becomes `callIdConflict`; a parse failure or
failed `assert isinstance(args, dict)` becomes `malformedArguments`. -/
inductive MergeError where
  | typeMismatch
  | argsRepresentationConflict
  | callIdConflict
  | malformedArguments
deriving DecidableEq

/-- TextPartDelta (messages.py lines 274-280). -/
structure TextPartDelta where
  content_delta : String

/-- TextPartDelta.apply (messages.py lines 282-285): concatenate onto a text
part's content; raise on any other part kind. -/
def TextPartDelta.apply (self : TextPartDelta) (part : ModelResponsePart) :
    Except MergeError TextPart :=
  match part with
  | .text tp => .ok ⟨tp.content ++ self.content_delta⟩
  | .toolCall _ => .error .typeMismatch

/-- ToolCallPartDelta (messages.py lines 288-296). -/
structure ToolCallPartDelta where
  tool_name_delta : Option String
  args_delta : Option RawArgs
  tool_call_id : Option String

/-- ToolCallPartDelta.as_part (messages.py lines 298-307): build a part when
both `tool_name_delta` and `args_delta` are not `None` (the Python check is
`is None`, not emptiness). -/
def ToolCallPartDelta.as_part (self : ToolCallPartDelta) : Option ToolCallPart :=
  match self.tool_name_delta, self.args_delta with
  | some name, some args => some (ToolCallPart.from_raw_args name args self.tool_call_id)
  | _, _ => none

/-- Name step of `_apply_to_delta` (messages.py lines 325-328): under
Python truthiness (`if self.tool_name_delta:`) an empty or absent incoming
fragment leaves the accumulated `tool_name_delta` alone; otherwise the
fragment is appended to the accumulated value, `None` counting as `""`. -/
def mergeNameDelta (incoming : Option String) (existing : Option String) :
    Option String :=
  match incoming with
  | some s => if s.isEmpty then existing else some ((existing.getD "") ++ s)
  | none => existing

/-- Name step of `_apply_to_part` (messages.py lines 358-361): under Python
truthiness an empty or absent incoming fragment leaves `tool_name` alone;
otherwise it is appended. -/
def mergeNamePart (incoming : Option String) (existing : String) : String :=
  match incoming with
  | some s => if s.isEmpty then existing else existing ++ s
  | none => existing

/-- Args step of `_apply_to_delta` (messages.py lines 330-339): a string
fragment concatenates onto an accumulated string (`None` counting as `""`)
and conflicts with an accumulated mapping; a mapping fragment merges by
`\x7b**old, **new\x7d` onto an accumulated mapping (`None` counting as
`\x7b\x7d`) and conflicts with an accumulated string; an absent fragment
changes nothing. -/
def mergeArgsDelta (incoming : Option RawArgs) (existing : Option RawArgs) :
    Except MergeError (Option RawArgs) :=
  match incoming with
  | none => .ok existing
  | some (.str s) =>
    match existing with
    | some (.dict _) => .error .argsRepresentationConflict
    | some (.str old) => .ok (some (.str (old ++ s)))
    | none => .ok (some (.str ("" ++ s)))
  | some (.dict d) =>
    match existing with
    | some (.str _) => .error .argsRepresentationConflict
    | some (.dict old) => .ok (some (.dict (dictUpdate old d)))
    | none => .ok (some (.dict (dictUpdate [] d)))

/-- Args step of `_apply_to_part` (messages.py lines 363-372): a string
fragment concatenates onto `ArgsJson` and conflicts with `ArgsDict`; a
mapping fragment merges by `\x7b**old, **new\x7d` onto `ArgsDict` and
conflicts with `ArgsJson`; an absent fragment changes nothing. -/
def mergeArgsPart (incoming : Option RawArgs) (existing : Args) :
    Except MergeError Args :=
  match incoming with
  | none => .ok existing
  | some (.str s) =>
    match existing with
    | .argsJson old => .ok (.argsJson (old ++ s))
    | .argsDict _ => .error .argsRepresentationConflict
  | some (.dict d) =>
    match existing with
    | .argsDict old => .ok (.argsDict (dictUpdate old d))
    | .argsJson _ => .error .argsRepresentationConflict

/-- Call-id step shared by `_apply_to_delta` (messages.py lines 341-345) and
`_apply_to_part` (lines 374-378): under Python truthiness an empty or absent
incoming id changes nothing; a non-empty incoming id replaces the existing
one unless that is set (`is not None`, even when empty) and different. -/
def mergeCallId (incoming : Option String) (existing : Option String) :
    Except MergeError (Option String) :=
  match incoming with
  | none => .ok existing
  | some cid =>
    if cid.isEmpty then .ok existing
    else
      match existing with
      | some old => if old = cid then .ok (some cid) else .error .callIdConflict
      | none => .ok (some cid)

/-- ToolCallPartDelta._apply_to_delta (messages.py lines 324-355): fold one
delta into an accumulated pending delta field by field, then materialize a
`ToolCallPart` when both `tool_name_delta` and `args_delta` are not `None`
(lines 347-353), otherwise return the still-pending folded delta. -/
def ToolCallPartDelta._apply_to_delta (self delta : ToolCallPartDelta) :
    Except MergeError (ToolCallPart ⊕ ToolCallPartDelta) :=
  let name := mergeNameDelta self.tool_name_delta delta.tool_name_delta
  match mergeArgsDelta self.args_delta delta.args_delta with
  | .error e => .error e
  | .ok args =>
    match mergeCallId self.tool_call_id delta.tool_call_id with
    | .error e => .error e
    | .ok cid =>
      match name, args with
      | some n, some a => .ok (Sum.inl (ToolCallPart.from_raw_args n a cid))
      | n, a => .ok (Sum.inr ⟨n, a, cid⟩)

/-- ToolCallPartDelta._apply_to_part (messages.py lines 357-379): apply one
delta to a materialized tool-call part field by field. -/
def ToolCallPartDelta._apply_to_part (self : ToolCallPartDelta)
    (part : ToolCallPart) : Except MergeError ToolCallPart :=
  let name := mergeNamePart self.tool_name_delta part.tool_name
  match mergeArgsPart self.args_delta part.args with
  | .error e => .error e
  | .ok args =>
    match mergeCallId self.tool_call_id part.tool_call_id with
    | .error e => .error e
    | .ok cid => .ok ⟨name, args, cid⟩

/-- Arguments of the result of a fold, viewed as raw arguments: the args of
the materialized part, or the accumulated `args_delta` of a still-pending
delta. -/
def foldResultArgs : ToolCallPart ⊕ ToolCallPartDelta → Option RawArgs
  | .inl p =>
    match p.args with
    | .argsJson s => some (.str s)
    | .argsDict d => some (.dict d)
  | .inr d => d.args_delta

/-- Tool name of the result of a fold: the name of the materialized part, or
the accumulated `tool_name_delta` of a still-pending delta, `none` counting
as `""`. -/
def foldResultName : ToolCallPart ⊕ ToolCallPartDelta → String
  | .inl p => p.tool_name
  | .inr d => d.tool_name_delta.getD ""

/-- Left brace character, written by code point to keep it out of patterns. -/
def lbrace : Char := Char.ofNat 123

/-- Right brace character, written by code point. -/
def rbrace : Char := Char.ofNat 125

/-- Drop leading JSON whitespace (space, tab, line feed, carriage return,
i.e. code points 32, 9, 10, 13). -/
def dropJsonWs (cs : List Char) : List Char :=
  match cs with
  | [] => []
  | c :: rest =>
    if c.toNat = 32 ∨ c.toNat = 9 ∨ c.toNat = 10 ∨ c.toNat = 13 then dropJsonWs rest
    else cs

/-- Split a leading run of decimal digits off a character list. -/
def digitSpan (cs : List Char) : List Char × List Char :=
  cs.span Char.isDigit

/-- Value of one hexadecimal digit, if any, computed on code points
(48-57 are the digits, 97-102 lowercase a-f, 65-70 uppercase A-F). -/
def hexDigitVal (c : Char) : Option Nat :=
  let n := c.toNat
  if 48 ≤ n ∧ n ≤ 57 then some (n - 48)
  else if 97 ≤ n ∧ n ≤ 102 then some (n - 87)
  else if 65 ≤ n ∧ n ≤ 70 then some (n - 55)
  else none

/-- Modelled from the spec: body of a JSON string literal (the opening quote
already consumed), with the standard escapes; part of the JSON grammar
behind `pydantic_core.from_json`, which is an external dependency not among
the provided sources. Returns the decoded string and the input after the
closing quote. -/
def parseStringBody : List Char → Option (String × List Char)
  | [] => none
  | '"' :: rest => some ("", rest)
  | '\\' :: esc :: rest =>
    if esc == 'u' then
      match rest with
      | h1 :: h2 :: h3 :: h4 :: rest2 =>
        match hexDigitVal h1, hexDigitVal h2, hexDigitVal h3, hexDigitVal h4 with
        | some a, some b, some c, some d =>
          match parseStringBody rest2 with
          | some (s, rest3) =>
            some (String.mk (Char.ofNat (((a * 16 + b) * 16 + c) * 16 + d) :: s.data), rest3)
          | none => none
        | _, _, _, _ => none
      | _ => none
    else
      match
        (if esc == '"' then some '"'
         else if esc == '\\' then some '\\'
         else if esc == '/' then some '/'
         else if esc == 'b' then some (Char.ofNat 8)
         else if esc == 'f' then some (Char.ofNat 12)
         else if esc == 'n' then some '\n'
         else if esc == 'r' then some '\r'
         else if esc == 't' then some '\t'
         else none : Option Char)
      with
      | some c =>
        match parseStringBody rest with
        | some (s, rest2) => some (String.mk (c :: s.data), rest2)
        | none => none
      | none => none
  | c :: rest =>
    match parseStringBody rest with
    | some (s, rest2) => some (String.mk (c :: s.data), rest2)
    | none => none

/-- Modelled from the spec: a JSON number lexeme
(`-?digits(.digits)?((e|E)(+|-)?digits)?`), returned as its text together
with the remaining input. -/
def parseNumber (cs : List Char) : Option (String × List Char) :=
  let p1 : List Char × List Char :=
    match cs with
    | '-' :: rest => (['-'], rest)
    | _ => ([], cs)
  let p2 := digitSpan p1.2
  if p2.1.isEmpty then none
  else
    let p3 : List Char × List Char :=
      match p2.2 with
      | '.' :: rest =>
        let q := digitSpan rest
        if q.1.isEmpty then ([], p2.2) else ('.' :: q.1, q.2)
      | _ => ([], p2.2)
    let p4 : List Char × List Char :=
      match p3.2 with
      | e :: rest =>
        if e == 'e' || e == 'E' then
          let q1 : List Char × List Char :=
            match rest with
            | s :: rest2 => if s == '+' || s == '-' then ([s], rest2) else ([], rest)
            | [] => ([], rest)
          let q2 := digitSpan q1.2
          if q2.1.isEmpty then ([], p3.2) else (e :: (q1.1 ++ q2.1), q2.2)
        else ([], p3.2)
      | [] => ([], p3.2)
    some (String.mk (p1.1 ++ p2.1 ++ p3.1 ++ p4.1), p4.2)

/-- Parsing context: an array with the elements parsed so far (reversed), or
an object with the fields parsed so far (reversed) and the key whose value
is being parsed. -/
inductive PCtx where
  | inArr (done : List JsonValue)
  | inObj (done : List (String × JsonValue)) (key : String)

/-- Parser state: about to parse a value, or holding a finished value. -/
inductive PState where
  | toParse
  | haveVal (v : JsonValue)

/-- Modelled from the spec: one fuel-bounded step machine for the JSON value
grammar behind `pydantic_core.from_json` (an external dependency not among
the provided sources); the spec only requires that a "well-formed object"
parse and anything else be rejected. Parses one complete JSON value from
the input and returns it with the remaining input. -/
def pjLoop : Nat → PState → List PCtx → List Char → Option (JsonValue × List Char)
  | 0, _, _, _ => none
  | fuel + 1, .toParse, stack, cs =>
    match dropJsonWs cs with
    | [] => none
    | c :: rest =>
      if c == '"' then
        match parseStringBody rest with
        | some (s, rest2) => pjLoop fuel (.haveVal (.str s)) stack rest2
        | none => none
      else if c == '[' then
        match dropJsonWs rest with
        | c2 :: rest2 =>
          if c2 == ']' then pjLoop fuel (.haveVal (.arr [])) stack rest2
          else pjLoop fuel .toParse (.inArr [] :: stack) (c2 :: rest2)
        | [] => none
      else if c == lbrace then
        match dropJsonWs rest with
        | c2 :: rest2 =>
          if c2 == rbrace then pjLoop fuel (.haveVal (.obj [])) stack rest2
          else if c2 == '"' then
            match parseStringBody rest2 with
            | some (key, rest3) =>
              match dropJsonWs rest3 with
              | c3 :: rest4 =>
                if c3 == ':' then pjLoop fuel .toParse (.inObj [] key :: stack) rest4
                else none
              | [] => none
            | none => none
          else none
        | [] => none
      else
        match c :: rest with
        | 'n' :: 'u' :: 'l' :: 'l' :: rest2 => pjLoop fuel (.haveVal .null) stack rest2
        | 't' :: 'r' :: 'u' :: 'e' :: rest2 => pjLoop fuel (.haveVal (.bool true)) stack rest2
        | 'f' :: 'a' :: 'l' :: 's' :: 'e' :: rest2 => pjLoop fuel (.haveVal (.bool false)) stack rest2
        | cs2 =>
          match parseNumber cs2 with
          | some (lex, rest2) => pjLoop fuel (.haveVal (.num lex)) stack rest2
          | none => none
  | fuel + 1, .haveVal v, stack, cs =>
    match stack with
    | [] => some (v, cs)
    | .inArr done :: stk =>
      match dropJsonWs cs with
      | c :: rest =>
        if c == ',' then pjLoop fuel .toParse (.inArr (v :: done) :: stk) rest
        else if c == ']' then pjLoop fuel (.haveVal (.arr (v :: done).reverse)) stk rest
        else none
      | [] => none
    | .inObj done key :: stk =>
      match dropJsonWs cs with
      | c :: rest =>
        if c == ',' then
          match dropJsonWs rest with
          | c2 :: rest2 =>
            if c2 == '"' then
              match parseStringBody rest2 with
              | some (key2, rest3) =>
                match dropJsonWs rest3 with
                | c3 :: rest4 =>
                  if c3 == ':' then
                    pjLoop fuel .toParse (.inObj ((key, v) :: done) key2 :: stk) rest4
                  else none
                | [] => none
              | none => none
            else none
          | [] => none
        else if c == rbrace then
          pjLoop fuel (.haveVal (.obj ((key, v) :: done).reverse)) stk rest
        else none
      | [] => none

/-- Modelled from the spec: `pydantic_core.from_json` (external dependency,
not among the provided sources) — parse a complete JSON document, rejecting
trailing non-whitespace input. -/
def from_json (s : String) : Option JsonValue :=
  match pjLoop (8 * s.length + 8) .toParse [] s.data with
  | some (v, rest) => if (dropJsonWs rest).isEmpty then some v else none
  | none => none

/-- ToolCallPart.args_as_dict (messages.py lines 211-220): return `ArgsDict`
arguments as-is; parse `ArgsJson` arguments and require the result to be an
object (`assert isinstance(args, dict)`), failing otherwise. -/
def ToolCallPart.args_as_dict (self : ToolCallPart) :
    Except MergeError JsonDict :=
  match self.args with
  | .argsDict d => .ok d
  | .argsJson s =>
    match from_json s with
    | some (.obj fields) => .ok fields
    | _ => .error .malformedArguments

/-- ModelResponsePartDelta: the union `TextPartDelta | ToolCallPartDelta`
(messages.py line 382). -/
inductive ModelResponsePartDelta where
  | text (d : TextPartDelta)
  | toolCall (d : ToolCallPartDelta)

/-- PartStartEvent (messages.py lines 385-391). -/
structure PartStartEvent where
  index : Nat
  part : ModelResponsePart

/-- PartDeltaEvent (messages.py lines 394-400). -/
structure PartDeltaEvent where
  index : Nat
  delta : ModelResponsePartDelta

/-- ModelResponseStreamEvent: the union `PartStartEvent | PartDeltaEvent`
(messages.py line 403). -/
inductive ModelResponseStreamEvent where
  | start (e : PartStartEvent)
  | delta (e : PartDeltaEvent)

/-- Modelled from the spec (§4.2, §9): the opaque vendor identifier routing
fragments to slots — a provider-supplied name, an integer index, or the
single implicit anonymous slot. `FunctionStreamedResponse` (function.py
lines 191-207) uses the fixed name `content` for text and integer indices
for tool calls. -/
inductive VendorId where
  | name (s : String)
  | index (i : Nat)
  | anonymous
deriving DecidableEq

/-- Modelled from the spec (§4.2): a slot of the parts manager, holding
either a materialized part or a still-pending tool-call delta. -/
inductive Slot where
  | part (p : ModelResponsePart)
  | pending (d : ToolCallPartDelta)

/-- Modelled from the spec (§4.2): the state of
`ModelResponsePartsManager` (`_parts_manager.py`, not among the provided
sources) — an ordered sequence of slots and the map from vendor identifier
to the stable slot position assigned on first sight. -/
structure ModelResponsePartsManager where
  slots : List Slot
  vendorMap : List (VendorId × Nat)

/-- Modelled from the spec (§4.2): a freshly constructed manager with no
slots and no identifier assignments. -/
def ModelResponsePartsManager.empty : ModelResponsePartsManager := ⟨[], []⟩

/-- Position assigned to a vendor identifier, if it has been seen. -/
def ModelResponsePartsManager.lookupVendor (m : ModelResponsePartsManager)
    (vid : VendorId) : Option Nat :=
  (m.vendorMap.find? fun p => decide (p.1 = vid)).map Prod.snd

/-- Modelled from the spec (§4.2 `handle_text_fragment`, called
`handle_text_delta` by function.py line 194): an unseen identifier
allocates the next slot, stores a new text part and returns a
"part started" event; a seen identifier requires its slot to hold a text
part (fatal `typeMismatch` otherwise), applies the text delta via
`TextPartDelta.apply` in place and returns a "part updated" event. -/
def ModelResponsePartsManager.handle_text_delta (m : ModelResponsePartsManager)
    (vid : VendorId) (content : String) :
    Except MergeError (ModelResponsePartsManager × Option ModelResponseStreamEvent) :=
  match m.lookupVendor vid with
  | none =>
    let pos := m.slots.length
    let part := ModelResponsePart.text ⟨content⟩
    .ok (⟨m.slots ++ [Slot.part part], m.vendorMap ++ [(vid, pos)]⟩,
      some (.start ⟨pos, part⟩))
  | some pos =>
    match m.slots.get? pos with
    | some (Slot.part p) =>
      match (TextPartDelta.mk content).apply p with
      | .ok tp =>
        .ok (⟨m.slots.set pos (Slot.part (.text tp)), m.vendorMap⟩,
          some (.delta ⟨pos, .text ⟨content⟩⟩))
      | .error e => .error e
    | some (Slot.pending _) => .error .typeMismatch
    | none => .error .typeMismatch

/-- Concatenation of a list of fragment contents in arrival order. -/
def concatAll : List String → String
  | [] => ""
  | s :: rest => s ++ concatAll rest

/-- Feed a sequence of text fragments sharing one vendor identifier to the
parts manager, as `FunctionStreamedResponse._get_event_iterator`
(function.py lines 191-196) does for string items, discarding the emitted
events. -/
def runTextDeltas (vid : VendorId) (frags : List String)
    (m : ModelResponsePartsManager) : Except MergeError ModelResponsePartsManager :=
  match frags with
  | [] => .ok m
  | c :: rest =>
    match m.handle_text_delta vid c with
    | .ok (m2, _) => runTextDeltas vid rest m2
    | .error e => .error e

/-- Helper: filtering out of `b` the entries whose key occurs in `a` does not
change the first entry found for a key that does not occur in `a`. -/
lemma find?_filter_of_no_key (b : JsonDict) (a : JsonDict) (k : String)
    (ha : ∀ kv ∈ a, (kv.1 == k) = false) :
    (b.filter fun kv2 => !(a.any fun kv => kv.1 == kv2.1)).find? (fun kv => kv.1 == k) =
      b.find? (fun kv => kv.1 == k) := by
  induction b with
  | nil => simp
  | cons kv2 rest ih =>
    by_cases hp : (kv2.1 == k) = true
    · have hk : kv2.1 = k := eq_of_beq hp
      have hg : (a.any fun kv => kv.1 == kv2.1) = false := by
        rw [List.any_eq_false]
        intro kv hkv
        rw [hk]
        simp [ha kv hkv]
      rw [List.filter_cons]
      simp only [hg, Bool.not_false, if_pos]
      rw [@List.find?_cons_of_pos _ (fun kv => kv.1 == k) kv2 _ hp,
        @List.find?_cons_of_pos _ (fun kv => kv.1 == k) kv2 rest hp]
    · rw [List.filter_cons]
      rw [@List.find?_cons_of_neg _ (fun kv => kv.1 == k) kv2 rest hp]
      by_cases hg : (!(a.any fun kv => kv.1 == kv2.1)) = true
      · simp only [hg, if_pos]
        rw [@List.find?_cons_of_neg _ (fun kv => kv.1 == k) kv2 _ hp]
        exact ih
      · simp only [Bool.not_eq_true'] at hg
        simp only [hg, Bool.not_true, Bool.false_eq_true, if_false]
        exact ih

/-- Helper: the Python merge `\x7b**a, **b\x7d` is a shallow top-level key
overwrite — a lookup finds `b`'s value where `b` has the key and `a`'s value
otherwise. -/
lemma dictLookup_dictUpdate (a b : JsonDict) (k : String) :
    dictLookup (dictUpdate a b) k = (dictLookup b k).or (dictLookup a k) := by
  unfold dictLookup dictUpdate
  rw [List.find?_append, List.find?_map]
  have hcomp : ((fun kv => kv.1 == k) ∘ fun kv : String × JsonValue =>
      match b.find? (fun kv2 => kv2.1 == kv.1) with
      | some kv2 => (kv.1, kv2.2)
      | none => kv) = fun kv => kv.1 == k := by
    funext kv
    cases h : b.find? (fun kv2 => kv2.1 == kv.1) <;> simp [Function.comp, h]
  rw [hcomp]
  cases ha : a.find? (fun kv => kv.1 == k) with
  | none =>
    rw [find?_filter_of_no_key b a k]
    · cases hb : b.find? (fun kv => kv.1 == k) <;> simp
    · intro kv hkv
      have := List.find?_eq_none.mp ha kv hkv
      simpa using this
  | some kv =>
    have hpkv := List.find?_some ha
    have hk : kv.1 = k := eq_of_beq (by simpa using hpkv)
    simp only [Option.map_some']
    rw [hk]
    cases hb : b.find? (fun kv2 => kv2.1 == k) <;> simp [hb]

/-- Helper: `Args` back to the raw representation accepted by
`from_raw_args`. -/
def Args.toRaw : Args → RawArgs
  | .argsJson s => .str s
  | .argsDict d => .dict d

/-- Helper: the `Args` a raw argument wraps into. -/
def RawArgs.toArgs : RawArgs → Args
  | .str s => .argsJson s
  | .dict d => .argsDict d

lemma RawArgs.toArgs_toRaw (a : RawArgs) : a.toArgs.toRaw = a := by
  cases a <;> rfl

lemma Args.toRaw_toArgs (g : Args) : g.toRaw.toArgs = g := by
  cases g <;> rfl

lemma from_raw_args_eq (n : String) (a : RawArgs) (cid : Option String) :
    ToolCallPart.from_raw_args n a cid = ⟨n, a.toArgs, cid⟩ := by
  cases a <;> rfl

lemma as_part_some (d : ToolCallPartDelta) (p : ToolCallPart) :
    d.as_part = some p ↔
      ∃ n a, d.tool_name_delta = some n ∧ d.args_delta = some a ∧
        p = ToolCallPart.from_raw_args n a d.tool_call_id := by
  cases hn : d.tool_name_delta <;> cases ha : d.args_delta <;>
    simp [ToolCallPartDelta.as_part, hn, ha, eq_comm]

lemma as_part_isSome (d : ToolCallPartDelta) :
    d.as_part.isSome ↔ d.tool_name_delta.isSome ∧ d.args_delta.isSome := by
  cases hn : d.tool_name_delta <;> cases ha : d.args_delta <;>
    simp [ToolCallPartDelta.as_part, hn, ha]

lemma mergeNamePart_eq (inc : Option String) (ex : String) :
    mergeNamePart inc ex = ex ++ inc.getD "" := by
  cases inc with
  | none => simp [mergeNamePart]
  | some s =>
    by_cases hs : s.isEmpty
    · have : s = "" := (String.isEmpty_iff s).mp hs
      simp [mergeNamePart, hs, this]
    · simp [mergeNamePart, hs]

lemma mergeNameDelta_getD (inc ex : Option String) :
    (mergeNameDelta inc ex).getD "" = ex.getD "" ++ inc.getD "" := by
  cases inc with
  | none => simp [mergeNameDelta]
  | some s =>
    by_cases hs : s.isEmpty
    · have hse : s = "" := (String.isEmpty_iff s).mp hs
      subst hse
      simp [mergeNameDelta, show ("" : String).isEmpty = true from rfl]
    · simp [mergeNameDelta, hs]

lemma mergeNameDelta_some (inc : Option String) (n : String) :
    mergeNameDelta inc (some n) = some (mergeNamePart inc n) := by
  cases inc with
  | none => rfl
  | some s =>
    by_cases hs : s.isEmpty <;> simp [mergeNameDelta, mergeNamePart, hs]

lemma mergeArgs_compat (x : Option RawArgs) (a : RawArgs) :
    mergeArgsDelta x (some a) =
      (mergeArgsPart x a.toArgs).map (fun g => some g.toRaw) := by
  cases x with
  | none => cases a <;> rfl
  | some y => cases y <;> cases a <;> rfl

/-- Helper: unfolded shape of `_apply_to_part`. -/
lemma apply_to_part_ok (d : ToolCallPartDelta) (p q : ToolCallPart) :
    d._apply_to_part p = .ok q ↔
      ∃ args cid, mergeArgsPart d.args_delta p.args = .ok args ∧
        mergeCallId d.tool_call_id p.tool_call_id = .ok cid ∧
        q = ⟨mergeNamePart d.tool_name_delta p.tool_name, args, cid⟩ := by
  unfold ToolCallPartDelta._apply_to_part
  cases hm : mergeArgsPart d.args_delta p.args <;>
    cases hc : mergeCallId d.tool_call_id p.tool_call_id <;>
      simp [eq_comm]

lemma apply_to_part_error (d : ToolCallPartDelta) (p : ToolCallPart) (e : MergeError) :
    d._apply_to_part p = .error e ↔
      mergeArgsPart d.args_delta p.args = .error e ∨
      (∃ args, mergeArgsPart d.args_delta p.args = .ok args ∧
        mergeCallId d.tool_call_id p.tool_call_id = .error e) := by
  unfold ToolCallPartDelta._apply_to_part
  cases hm : mergeArgsPart d.args_delta p.args <;>
    cases hc : mergeCallId d.tool_call_id p.tool_call_id <;>
      simp

/-- Helper: materialization step of `_apply_to_delta` as a function. -/
def foldMaterialize (name : Option String) (args : Option RawArgs)
    (cid : Option String) : ToolCallPart ⊕ ToolCallPartDelta :=
  match name, args with
  | some n, some a => .inl (ToolCallPart.from_raw_args n a cid)
  | n, a => .inr ⟨n, a, cid⟩

lemma apply_to_delta_eq (d2 d : ToolCallPartDelta) :
    d2._apply_to_delta d =
      match mergeArgsDelta d2.args_delta d.args_delta with
      | .error e => .error e
      | .ok args =>
        match mergeCallId d2.tool_call_id d.tool_call_id with
        | .error e => .error e
        | .ok cid =>
          .ok (foldMaterialize (mergeNameDelta d2.tool_name_delta d.tool_name_delta) args cid) := by
  unfold ToolCallPartDelta._apply_to_delta foldMaterialize
  cases mergeArgsDelta d2.args_delta d.args_delta with
  | error e => rfl
  | ok args =>
    cases mergeCallId d2.tool_call_id d.tool_call_id with
    | error e => rfl
    | ok cid =>
      cases mergeNameDelta d2.tool_name_delta d.tool_name_delta <;> cases args <;> rfl

lemma foldMaterialize_inr (name : Option String) (args : Option RawArgs)
    (cid : Option String) (d' : ToolCallPartDelta)
    (h : foldMaterialize name args cid = .inr d') :
    d' = ⟨name, args, cid⟩ ∧ ¬(name.isSome ∧ args.isSome) := by
  cases name <;> cases args <;> simp [foldMaterialize, eq_comm] at h ⊢ <;> simp [← h]

lemma foldMaterialize_inl (name : Option String) (args : Option RawArgs)
    (cid : Option String) (p : ToolCallPart)
    (h : foldMaterialize name args cid = .inl p) :
    ∃ n a, name = some n ∧ args = some a ∧
      p = ToolCallPart.from_raw_args n a cid := by
  cases name <;> cases args <;> simp [foldMaterialize] at h ⊢ <;> simp [← h]

lemma apply_to_delta_ok (d2 d : ToolCallPartDelta) (r : ToolCallPart ⊕ ToolCallPartDelta) :
    d2._apply_to_delta d = .ok r ↔
      ∃ args cid, mergeArgsDelta d2.args_delta d.args_delta = .ok args ∧
        mergeCallId d2.tool_call_id d.tool_call_id = .ok cid ∧
        r = foldMaterialize (mergeNameDelta d2.tool_name_delta d.tool_name_delta) args cid := by
  rw [apply_to_delta_eq]
  cases hm : mergeArgsDelta d2.args_delta d.args_delta <;>
    cases hc : mergeCallId d2.tool_call_id d.tool_call_id <;>
      simp [eq_comm]

lemma apply_to_delta_error (d2 d : ToolCallPartDelta) (e : MergeError) :
    d2._apply_to_delta d = .error e ↔
      mergeArgsDelta d2.args_delta d.args_delta = .error e ∨
      (∃ args, mergeArgsDelta d2.args_delta d.args_delta = .ok args ∧
        mergeCallId d2.tool_call_id d.tool_call_id = .error e) := by
  rw [apply_to_delta_eq]
  cases hm : mergeArgsDelta d2.args_delta d.args_delta <;>
    cases hc : mergeCallId d2.tool_call_id d.tool_call_id <;>
      simp

lemma mergeCallId_error (inc ex : Option String) (e : MergeError) :
    mergeCallId inc ex = .error e ↔
      e = .callIdConflict ∧
        ∃ cid old, inc = some cid ∧ cid ≠ "" ∧ ex = some old ∧ old ≠ cid := by
  cases inc with
  | none => simp [mergeCallId]
  | some cid =>
    by_cases hs : cid.isEmpty
    · have hce : cid = "" := (String.isEmpty_iff cid).mp hs
      subst hce
      simp [mergeCallId, show ("" : String).isEmpty = true from rfl]
    · have hne : cid ≠ "" := fun hc => hs (by rw [hc]; rfl)
      cases ex with
      | none => simp [mergeCallId, hs]
      | some old =>
        by_cases ho : old = cid <;> simp [mergeCallId, hs, ho, hne, eq_comm]

lemma mergeCallId_not_error_ok (inc ex : Option String)
    (h : ∀ e, mergeCallId inc ex ≠ .error e) :
    ∃ cid, mergeCallId inc ex = .ok cid := by
  cases hm : mergeCallId inc ex with
  | error e => exact absurd hm (h e)
  | ok cid => exact ⟨cid, rfl⟩

lemma mergeArgsDelta_some_isSome (x : Option RawArgs) (a : RawArgs)
    (args : Option RawArgs) (h : mergeArgsDelta x (some a) = .ok args) :
    args.isSome := by
  cases x with
  | none => simp [mergeArgsDelta] at h; simp [← h]
  | some y => cases y <;> cases a <;> simp [mergeArgsDelta] at h <;> simp [← h]

lemma from_raw_args_tool_name (n : String) (a : RawArgs) (cid : Option String) :
    (ToolCallPart.from_raw_args n a cid).tool_name = n := by
  cases a <;> rfl

/-- C1 (counterexample): a pending delta carrying an empty tool name and an
empty argument string — both present but empty — is materialized by
`as_part` into a part, whereas the claim (a part is yielded exactly when
both are non-empty) predicts it stays pending. -/
theorem c1_empty_fields_still_materialize :
    (ToolCallPartDelta.mk (some "") (some (.str "")) none).as_part =
      some ⟨"", .argsJson "", none⟩ := rfl

/-- C1 (amended): materialization — `as_part`, and the materialization step
inside `_apply_to_delta` — yields a tool-call part exactly when the
accumulated delta carries both a tool name and arguments that are present
(not `None`), regardless of emptiness; while either field is absent the
delta stays pending, and once both are present a successful fold always
yields a part. -/
theorem c1_materialize_iff_fields_present :
    (∀ d : ToolCallPartDelta,
      d.as_part.isSome ↔ d.tool_name_delta.isSome ∧ d.args_delta.isSome) ∧
    (∀ d2 d d' : ToolCallPartDelta,
      d2._apply_to_delta d = .ok (Sum.inr d') →
        ¬(d'.tool_name_delta.isSome ∧ d'.args_delta.isSome)) ∧
    (∀ (d2 d : ToolCallPartDelta) (r : ToolCallPart ⊕ ToolCallPartDelta),
      d2._apply_to_delta d = .ok r → d.tool_name_delta.isSome →
        d.args_delta.isSome → ∃ p, r = Sum.inl p) := by
  refine ⟨as_part_isSome, ?_, ?_⟩
  · intro d2 d d' h
    obtain ⟨args, cid, _, _, hr⟩ := (apply_to_delta_ok d2 d _).mp h
    obtain ⟨hd', hno⟩ := foldMaterialize_inr _ _ _ _ hr.symm
    subst hd'
    exact hno
  · intro d2 d r h hn ha
    obtain ⟨n, hn'⟩ := Option.isSome_iff_exists.mp hn
    obtain ⟨a, ha'⟩ := Option.isSome_iff_exists.mp ha
    obtain ⟨args, cid, hargs, hcid, hr⟩ := (apply_to_delta_ok d2 d _).mp h
    rw [ha'] at hargs
    have hsome := mergeArgsDelta_some_isSome _ _ _ hargs
    obtain ⟨b, hb⟩ := Option.isSome_iff_exists.mp hsome
    rw [hn'] at hr
    rw [mergeNameDelta_some, hb] at hr
    exact ⟨_, hr⟩

/-- C1 (witness): folding a name-only fragment into an empty pending delta
leaves a pending delta that does not yet carry both fields. -/
theorem c1_witness :
    ¬((some "f" : Option String).isSome ∧ (none : Option RawArgs).isSome) :=
  c1_materialize_iff_fields_present.2.1 ⟨some "f", none, none⟩ ⟨none, none, none⟩
    ⟨some "f", none, none⟩ rfl

/-- C6: applying a text delta to a text part concatenates `content_delta`
onto the content; applying it to a non-text part fails with
`typeMismatch`. -/
theorem c6_text_delta_apply :
    (∀ (tp : TextPart) (d : TextPartDelta),
      d.apply (.text tp) = .ok ⟨tp.content ++ d.content_delta⟩) ∧
    (∀ (tc : ToolCallPart) (d : TextPartDelta),
      d.apply (.toolCall tc) = .error .typeMismatch) :=
  ⟨fun _ _ => rfl, fun _ _ => rfl⟩

/-- C10: a `None` field of a tool-call delta leaves the corresponding field
of the part unchanged in the result of a successful `_apply_to_part`. -/
theorem c10_absent_fields_frame (p : ToolCallPart) (d : ToolCallPartDelta)
    (q : ToolCallPart) (h : d._apply_to_part p = .ok q) :
    (d.args_delta = none → q.args = p.args) ∧
    (d.tool_name_delta = none → q.tool_name = p.tool_name) ∧
    (d.tool_call_id = none → q.tool_call_id = p.tool_call_id) := by
  obtain ⟨args, cid, hargs, hcid, hq⟩ := (apply_to_part_ok d p q).mp h
  subst hq
  refine ⟨?_, ?_, ?_⟩
  · intro hd
    rw [hd] at hargs
    simp [mergeArgsPart] at hargs
    exact hargs.symm
  · intro hd
    rw [hd]
    rfl
  · intro hd
    rw [hd] at hcid
    simp [mergeCallId] at hcid
    exact hcid.symm

/-- C10 (witness): the all-`None` delta applied to a concrete part changes
no field. -/
theorem c10_witness :
    (ToolCallPart.mk "f" (.argsJson "1") (some "c")).args = .argsJson "1" ∧
    (ToolCallPart.mk "f" (.argsJson "1") (some "c")).tool_name = "f" ∧
    (ToolCallPart.mk "f" (.argsJson "1") (some "c")).tool_call_id = some "c" :=
  ⟨(c10_absent_fields_frame ⟨"f", .argsJson "1", some "c"⟩ ⟨none, none, none⟩ _ rfl).1 rfl,
   (c10_absent_fields_frame ⟨"f", .argsJson "1", some "c"⟩ ⟨none, none, none⟩ _ rfl).2.1 rfl,
   (c10_absent_fields_frame ⟨"f", .argsJson "1", some "c"⟩ ⟨none, none, none⟩ _ rfl).2.2 rfl⟩

/-- C3: an argument fragment of the wrong representation — a string onto
mapping arguments, or a mapping onto string arguments — makes both
`_apply_to_part` and `_apply_to_delta` fail with
`argsRepresentationConflict`; since the merge returns only the error, no
updated part or delta value is produced and the target is unchanged. -/
theorem c3_representation_conflict :
    (∀ (p : ToolCallPart) (d : ToolCallPartDelta) (s : String) (dd : JsonDict),
      p.args = .argsDict dd → d.args_delta = some (.str s) →
      d._apply_to_part p = .error .argsRepresentationConflict) ∧
    (∀ (p : ToolCallPart) (d : ToolCallPartDelta) (s : String) (b : JsonDict),
      p.args = .argsJson s → d.args_delta = some (.dict b) →
      d._apply_to_part p = .error .argsRepresentationConflict) ∧
    (∀ (dOld d : ToolCallPartDelta) (s : String) (a : JsonDict),
      dOld.args_delta = some (.dict a) → d.args_delta = some (.str s) →
      d._apply_to_delta dOld = .error .argsRepresentationConflict) ∧
    (∀ (dOld d : ToolCallPartDelta) (s : String) (b : JsonDict),
      dOld.args_delta = some (.str s) → d.args_delta = some (.dict b) →
      d._apply_to_delta dOld = .error .argsRepresentationConflict) := by
  refine ⟨?_, ?_, ?_, ?_⟩
  · intro p d s dd hp hd
    exact (apply_to_part_error d p _).mpr (Or.inl (by rw [hd, hp]; rfl))
  · intro p d s b hp hd
    exact (apply_to_part_error d p _).mpr (Or.inl (by rw [hd, hp]; rfl))
  · intro dOld d s a ho hd
    exact (apply_to_delta_error d dOld _).mpr (Or.inl (by rw [hd, ho]; rfl))
  · intro dOld d s b ho hd
    exact (apply_to_delta_error d dOld _).mpr (Or.inl (by rw [hd, ho]; rfl))

/-- C3 (witness): a concrete string fragment onto mapping arguments fails
with `argsRepresentationConflict`. -/
theorem c3_witness :
    (ToolCallPartDelta.mk none (some (.str "x")) none)._apply_to_part
        ⟨"f", .argsDict [], none⟩ = .error .argsRepresentationConflict :=
  c3_representation_conflict.1 ⟨"f", .argsDict [], none⟩
    ⟨none, some (.str "x"), none⟩ "x" [] rfl rfl

/-- C5: whenever `_apply_to_part` or `_apply_to_delta` succeeds, the
resulting tool name is the old name (for a pending delta: its accumulated
`tool_name_delta`, `None` counting as the empty string) with the delta's
`tool_name_delta`, if any, appended — so the old name is a prefix of the
new and is never shortened or replaced. -/
theorem c5_name_only_grows :
    (∀ (p : ToolCallPart) (d : ToolCallPartDelta) (q : ToolCallPart),
      d._apply_to_part p = .ok q →
        q.tool_name = p.tool_name ++ d.tool_name_delta.getD "") ∧
    (∀ (dOld d : ToolCallPartDelta) (r : ToolCallPart ⊕ ToolCallPartDelta),
      d._apply_to_delta dOld = .ok r →
        foldResultName r = dOld.tool_name_delta.getD "" ++ d.tool_name_delta.getD "") := by
  constructor
  · intro p d q h
    obtain ⟨args, cid, _, _, hq⟩ := (apply_to_part_ok d p q).mp h
    subst hq
    exact mergeNamePart_eq _ _
  · intro dOld d r h
    obtain ⟨args, cid, _, _, hr⟩ := (apply_to_delta_ok d dOld _).mp h
    subst hr
    cases hf : foldMaterialize (mergeNameDelta d.tool_name_delta dOld.tool_name_delta) args cid with
    | inl p =>
      obtain ⟨n, a, hn, _, hp⟩ := foldMaterialize_inl _ _ _ _ hf
      subst hp
      rw [foldResultName, from_raw_args_tool_name]
      rw [← mergeNameDelta_getD d.tool_name_delta dOld.tool_name_delta, hn]
      rfl
    | inr d' =>
      obtain ⟨hd', _⟩ := foldMaterialize_inr _ _ _ _ hf
      subst hd'
      rw [foldResultName]
      exact mergeNameDelta_getD _ _

/-- C5 (witness): a concrete name fragment appends to a concrete part's
name. -/
theorem c5_witness :
    (ToolCallPart.mk "foobar" (.argsJson "1") none).tool_name =
      "foo" ++ (some "bar" : Option String).getD "" :=
  c5_name_only_grows.1 ⟨"foo", .argsJson "1", none⟩ ⟨some "bar", none, none⟩
    ⟨"foobar", .argsJson "1", none⟩ rfl

/-- C7: folding a delta into a pending delta that already materializes to a
part `p` is equivalent to applying it to `p`: the fold succeeds exactly when
the apply succeeds, fails with the same error otherwise, and on success the
fold's result is the materialized part the apply produces. -/
theorem c7_fold_refines_apply (d d2 : ToolCallPartDelta) (p : ToolCallPart)
    (h : d.as_part = some p) :
    d2._apply_to_delta d = (d2._apply_to_part p).map Sum.inl := by
  obtain ⟨n, a, hn, ha, hp⟩ := (as_part_some d p).mp h
  subst hp
  rw [from_raw_args_eq]
  rw [apply_to_delta_eq]
  unfold ToolCallPartDelta._apply_to_part
  rw [ha, hn, mergeArgs_compat, mergeNameDelta_some]
  cases hm : mergeArgsPart d2.args_delta a.toArgs with
  | error e => rfl
  | ok g =>
    cases hc : mergeCallId d2.tool_call_id d.tool_call_id with
    | error e => rfl
    | ok cid =>
      show Except.ok (foldMaterialize _ _ _) = _
      rw [foldMaterialize]
      simp [from_raw_args_eq, Args.toRaw_toArgs, Except.map]

/-- C7 (witness): a concrete fold into a materializable pending delta equals
the apply to its materialization. -/
theorem c7_witness :
    (ToolCallPartDelta.mk (some "g") (some (.str "b")) (some "i"))._apply_to_delta
        ⟨some "f", some (.str "a"), none⟩ =
      ((ToolCallPartDelta.mk (some "g") (some (.str "b")) (some "i"))._apply_to_part
        ⟨"f", .argsJson "a", none⟩).map Sum.inl :=
  c7_fold_refines_apply ⟨some "f", some (.str "a"), none⟩
    ⟨some "g", some (.str "b"), some "i"⟩ ⟨"f", .argsJson "a", none⟩ rfl

lemma foldResultArgs_foldMaterialize (name : Option String)
    (args : Option RawArgs) (cid : Option String) :
    foldResultArgs (foldMaterialize name args cid) = args := by
  cases name <;> cases args <;>
    first
    | rfl
    | (rename_i a; cases a <;> rfl)

/-- C2: argument fragments matching the existing representation merge as
claimed, for `_apply_to_part` and `_apply_to_delta` alike: a string
fragment concatenates onto the end of the existing JSON string, and a
mapping fragment merges into the existing mapping by the Python
`\x7b**old, **new\x7d` update — a shallow merge in which, at every
top-level key, the incoming delta's value replaces the existing one. -/
theorem c2_args_merge_rules :
    (∀ (p : ToolCallPart) (d : ToolCallPartDelta) (q : ToolCallPart) (s t : String),
      d._apply_to_part p = .ok q → p.args = .argsJson s →
      d.args_delta = some (.str t) → q.args = .argsJson (s ++ t)) ∧
    (∀ (p : ToolCallPart) (d : ToolCallPartDelta) (q : ToolCallPart) (a b : JsonDict),
      d._apply_to_part p = .ok q → p.args = .argsDict a →
      d.args_delta = some (.dict b) → q.args = .argsDict (dictUpdate a b)) ∧
    (∀ (dOld d : ToolCallPartDelta) (r : ToolCallPart ⊕ ToolCallPartDelta) (s t : String),
      d._apply_to_delta dOld = .ok r → dOld.args_delta = some (.str s) →
      d.args_delta = some (.str t) → foldResultArgs r = some (.str (s ++ t))) ∧
    (∀ (dOld d : ToolCallPartDelta) (r : ToolCallPart ⊕ ToolCallPartDelta) (a b : JsonDict),
      d._apply_to_delta dOld = .ok r → dOld.args_delta = some (.dict a) →
      d.args_delta = some (.dict b) → foldResultArgs r = some (.dict (dictUpdate a b))) ∧
    (∀ (a b : JsonDict) (k : String),
      dictLookup (dictUpdate a b) k = (dictLookup b k).or (dictLookup a k)) := by
  refine ⟨?_, ?_, ?_, ?_, dictLookup_dictUpdate⟩
  · intro p d q s t h hp hd
    obtain ⟨args, cid, hargs, _, hq⟩ := (apply_to_part_ok d p q).mp h
    rw [hd, hp] at hargs
    subst hq
    simp [mergeArgsPart] at hargs
    exact hargs.symm
  · intro p d q a b h hp hd
    obtain ⟨args, cid, hargs, _, hq⟩ := (apply_to_part_ok d p q).mp h
    rw [hd, hp] at hargs
    subst hq
    simp [mergeArgsPart] at hargs
    exact hargs.symm
  · intro dOld d r s t h ho hd
    obtain ⟨args, cid, hargs, _, hr⟩ := (apply_to_delta_ok d dOld _).mp h
    rw [hd, ho] at hargs
    simp [mergeArgsDelta] at hargs
    subst hr
    rw [foldResultArgs_foldMaterialize, ← hargs]
  · intro dOld d r a b h ho hd
    obtain ⟨args, cid, hargs, _, hr⟩ := (apply_to_delta_ok d dOld _).mp h
    rw [hd, ho] at hargs
    simp [mergeArgsDelta] at hargs
    subst hr
    rw [foldResultArgs_foldMaterialize, ← hargs]

/-- C2 (witness): a concrete string fragment concatenates and a concrete
mapping fragment overwrites at the shared key. -/
theorem c2_witness :
    (ToolCallPart.mk "f" (.argsJson "ab") none).args = .argsJson ("a" ++ "b") ∧
    (ToolCallPart.mk "f"
        (.argsDict [("x", .num "1"), ("y", .num "2")]) none).args =
      .argsDict (dictUpdate [("x", .num "1")] [("y", .num "2")]) :=
  ⟨c2_args_merge_rules.1 ⟨"f", .argsJson "a", none⟩ ⟨none, some (.str "b"), none⟩
      ⟨"f", .argsJson "ab", none⟩ "a" "b" rfl rfl rfl,
   c2_args_merge_rules.2.1 ⟨"f", .argsDict [("x", .num "1")], none⟩
      ⟨none, some (.dict [("y", .num "2")]), none⟩
      ⟨"f", .argsDict [("x", .num "1"), ("y", .num "2")], none⟩
      [("x", .num "1")] [("y", .num "2")] rfl rfl rfl⟩

/-- C4 (counterexample): a part whose `tool_call_id` is the empty string —
set, but not "non-empty" — conflicts with an incoming different id, whereas
the claim (conflict only against a different non-empty id) predicts the
apply succeeds. -/
theorem c4_empty_callid_conflicts :
    (ToolCallPartDelta.mk none none (some "x"))._apply_to_part
        ⟨"f", .argsJson "1", some ""⟩ = .error .callIdConflict := rfl

/-- C4 (amended): provided the argument merge itself succeeds, applying or
folding fails with `callIdConflict` exactly when the delta's `call_id` is
non-empty (Python truthiness: an empty incoming id conveys no change), the
target's `call_id` is already set — `is not None`, possibly to the empty
string — and the two values differ; in every other case (incoming id
absent or empty, target id unset, or identical values) the operation
succeeds. -/
theorem c4_callid_conflict_iff :
    (∀ (p : ToolCallPart) (d : ToolCallPartDelta),
      (∃ g, mergeArgsPart d.args_delta p.args = .ok g) →
      ((d._apply_to_part p = .error .callIdConflict ↔
        ∃ cid old, d.tool_call_id = some cid ∧ cid ≠ "" ∧
          p.tool_call_id = some old ∧ old ≠ cid) ∧
       ((∃ q, d._apply_to_part p = .ok q) ↔
        ¬∃ cid old, d.tool_call_id = some cid ∧ cid ≠ "" ∧
          p.tool_call_id = some old ∧ old ≠ cid))) ∧
    (∀ (dOld d : ToolCallPartDelta),
      (∃ g, mergeArgsDelta d.args_delta dOld.args_delta = .ok g) →
      ((d._apply_to_delta dOld = .error .callIdConflict ↔
        ∃ cid old, d.tool_call_id = some cid ∧ cid ≠ "" ∧
          dOld.tool_call_id = some old ∧ old ≠ cid) ∧
       ((∃ r, d._apply_to_delta dOld = .ok r) ↔
        ¬∃ cid old, d.tool_call_id = some cid ∧ cid ≠ "" ∧
          dOld.tool_call_id = some old ∧ old ≠ cid))) := by
  constructor
  · rintro p d ⟨g, hg⟩
    constructor
    · rw [apply_to_part_error]
      constructor
      · rintro (hbad | ⟨args, _, hc⟩)
        · rw [hg] at hbad
          cases hbad
        · exact ((mergeCallId_error _ _ _).mp hc).2
      · intro hcond
        exact Or.inr ⟨g, hg, (mergeCallId_error _ _ _).mpr ⟨rfl, hcond⟩⟩
    · constructor
      · rintro ⟨q, hq⟩ hcond
        obtain ⟨args, cid, _, hc, _⟩ := (apply_to_part_ok d p q).mp hq
        rw [(mergeCallId_error _ _ .callIdConflict).mpr ⟨rfl, hcond⟩] at hc
        cases hc
      · intro hcond
        have hok : ∃ cid, mergeCallId d.tool_call_id p.tool_call_id = .ok cid := by
          apply mergeCallId_not_error_ok
          intro e he
          exact hcond ((mergeCallId_error _ _ _).mp he).2
        obtain ⟨cid, hc⟩ := hok
        exact ⟨_, (apply_to_part_ok d p _).mpr ⟨g, cid, hg, hc, rfl⟩⟩
  · rintro dOld d ⟨g, hg⟩
    constructor
    · rw [apply_to_delta_error]
      constructor
      · rintro (hbad | ⟨args, _, hc⟩)
        · rw [hg] at hbad
          cases hbad
        · exact ((mergeCallId_error _ _ _).mp hc).2
      · intro hcond
        exact Or.inr ⟨g, hg, (mergeCallId_error _ _ _).mpr ⟨rfl, hcond⟩⟩
    · constructor
      · rintro ⟨r, hr⟩ hcond
        obtain ⟨args, cid, _, hc, _⟩ := (apply_to_delta_ok d dOld r).mp hr
        rw [(mergeCallId_error _ _ .callIdConflict).mpr ⟨rfl, hcond⟩] at hc
        cases hc
      · intro hcond
        have hok : ∃ cid, mergeCallId d.tool_call_id dOld.tool_call_id = .ok cid := by
          apply mergeCallId_not_error_ok
          intro e he
          exact hcond ((mergeCallId_error _ _ _).mp he).2
        obtain ⟨cid, hc⟩ := hok
        exact ⟨_, (apply_to_delta_ok d dOld _).mpr ⟨g, cid, hg, hc, rfl⟩⟩

/-- C4 (witness): setting a call id on a part with none set succeeds, and a
differing non-empty id against a non-empty set id conflicts. -/
theorem c4_witness :
    ((ToolCallPartDelta.mk none none (some "i"))._apply_to_part
        ⟨"f", .argsJson "1", none⟩ = .error .callIdConflict ↔
      ∃ cid old, (some "i" : Option String) = some cid ∧ cid ≠ "" ∧
        (none : Option String) = some old ∧ old ≠ cid) :=
  ((c4_callid_conflict_iff.1 ⟨"f", .argsJson "1", none⟩ ⟨none, none, some "i"⟩
    ⟨.argsJson "1", rfl⟩).1)

/-- Helper: whether a JSON value is an object. -/
def JsonValue.isObj : JsonValue → Bool
  | .obj _ => true
  | _ => false

/-- C8: `args_as_dict` returns `ArgsDict` arguments as-is; for `ArgsJson`
arguments it returns the parsed fields exactly when the string parses as a
JSON object, and fails with `malformedArguments` both when parsing fails
and when the string parses as valid JSON that is not an object. -/
theorem c8_args_as_dict :
    (∀ (p : ToolCallPart) (dd : JsonDict), p.args = .argsDict dd →
      p.args_as_dict = .ok dd) ∧
    (∀ (p : ToolCallPart) (s : String) (m : JsonDict), p.args = .argsJson s →
      from_json s = some (.obj m) → p.args_as_dict = .ok m) ∧
    (∀ (p : ToolCallPart) (s : String), p.args = .argsJson s →
      from_json s = none → p.args_as_dict = .error .malformedArguments) ∧
    (∀ (p : ToolCallPart) (s : String) (v : JsonValue), p.args = .argsJson s →
      from_json s = some v → v.isObj = false →
      p.args_as_dict = .error .malformedArguments) := by
  refine ⟨?_, ?_, ?_, ?_⟩
  · intro p dd hp
    simp only [ToolCallPart.args_as_dict, hp]
  · intro p s m hp hj
    simp only [ToolCallPart.args_as_dict, hp]
    rw [hj]
  · intro p s hp hj
    simp only [ToolCallPart.args_as_dict, hp]
    rw [hj]
  · intro p s v hp hj hv
    simp only [ToolCallPart.args_as_dict, hp]
    rw [hj]
    cases v <;> simp [JsonValue.isObj] at hv ⊢

/-- C8 (witness): concrete cases — mapping arguments returned as-is, an
object string parsed, a valid non-object JSON string rejected, and an
unparseable string rejected. -/
theorem c8_witness :
    (ToolCallPart.mk "f" (.argsDict [("k", .null)]) none).args_as_dict =
      .ok [("k", .null)] ∧
    (ToolCallPart.mk "f" (.argsJson "\x7b\"a\": true\x7d") none).args_as_dict =
      .ok [("a", .bool true)] ∧
    (ToolCallPart.mk "f" (.argsJson "[1, 2]") none).args_as_dict =
      .error .malformedArguments ∧
    (ToolCallPart.mk "f" (.argsJson "not json") none).args_as_dict =
      .error .malformedArguments :=
  ⟨c8_args_as_dict.1 ⟨"f", .argsDict [("k", .null)], none⟩ [("k", .null)] rfl,
   c8_args_as_dict.2.1 ⟨"f", .argsJson "\x7b\"a\": true\x7d", none⟩
     "\x7b\"a\": true\x7d" [("a", .bool true)] rfl rfl,
   c8_args_as_dict.2.2.2 ⟨"f", .argsJson "[1, 2]", none⟩ "[1, 2]"
     (.arr [.num "1", .num "2"]) rfl rfl rfl,
   c8_args_as_dict.2.2.1 ⟨"f", .argsJson "not json", none⟩ "not json" rfl rfl⟩

/-- Helper: once a vendor identifier owns slot 0 holding a text part,
feeding further text fragments keeps appending to that one slot. -/
lemma runTextDeltas_single_slot (vid : VendorId) (frags : List String) :
    ∀ s : String,
      runTextDeltas vid frags ⟨[Slot.part (.text ⟨s⟩)], [(vid, 0)]⟩ =
        .ok ⟨[Slot.part (.text ⟨s ++ concatAll frags⟩)], [(vid, 0)]⟩ := by
  induction frags with
  | nil =>
    intro s
    simp [runTextDeltas, concatAll, String.append_empty]
  | cons c rest ih =>
    intro s
    have hstep :
        (⟨[Slot.part (.text ⟨s⟩)], [(vid, 0)]⟩ :
            ModelResponsePartsManager).handle_text_delta vid c =
          .ok (⟨[Slot.part (.text ⟨s ++ c⟩)], [(vid, 0)]⟩,
            some (.delta ⟨0, .text ⟨c⟩⟩)) := by
      unfold ModelResponsePartsManager.handle_text_delta
        ModelResponsePartsManager.lookupVendor
      simp [TextPartDelta.apply]
    rw [runTextDeltas, hstep]
    show runTextDeltas vid rest ⟨[Slot.part (.text ⟨s ++ c⟩)], [(vid, 0)]⟩ = _
    rw [ih (s ++ c), concatAll, String.append_assoc]

/-- C9: for every sequence of text fragments sharing one vendor identifier
fed to a fresh parts manager — as `FunctionStreamedResponse` feeds every
string item under the single identifier `content` — the final state holds
exactly one materialized text part whose content is the concatenation of
all fragment contents in arrival order. -/
theorem c9_text_fragments_concatenate (vid : VendorId) (c : String)
    (rest : List String) :
    runTextDeltas vid (c :: rest) .empty =
      .ok ⟨[Slot.part (.text ⟨concatAll (c :: rest)⟩)], [(vid, 0)]⟩ := by
  have h1 : runTextDeltas vid (c :: rest) .empty =
      runTextDeltas vid rest ⟨[Slot.part (.text ⟨c⟩)], [(vid, 0)]⟩ := rfl
  rw [h1, runTextDeltas_single_slot vid rest c, concatAll]
